import Mathlib

/-!
The logd `LogListener` (src/logd/LogListener.cpp).

A shallow embedding of `LogListener::HandleData`, `LogListener::StartListener` and
`LogListener::GetLogSocket`, and the properties of the write-socket endpoint proved
about it.

Conventions.
* The constants and types that the source takes from headers outside `src/`
  (`android_log_header_t`, `LOGGER_ENTRY_MAX_PAYLOAD`, `AID_LOGD`, the `log_id_t`
  enumerators, `SOL_SOCKET`, `SCM_CREDENTIALS`, the width of `size_t`) are the fields
  of a `Platform`; every definition and theorem is parametric in it.  `android` is the
  instance used to evaluate the definitions on concrete inputs.
* `ssize_t` values are `Int`, `size_t` values are `Nat`; the conversions the C++
  performs are written out (`to_size_t`, `to_ssize_t`, `to_uint16_t`).
* One call of `HandleData` is a function of what `recvmsg` produced (`Received`) and of
  the answers of the two security-policy functions (`Policy`); its result (`Outcome`)
  is the receive buffer afterwards, the stores made into it, and the calls made to
  `LogBuffer::log`, in order.
* `Listener.HandleData` is the same function as a member of a listener: it adds the
  descriptor `recvmsg` is called on, the log buffer the call goes to, and the listener
  afterwards.  `GetLogSocket_passcred` is `GetLogSocket` with the state of the socket
  option `SO_PASSCRED` passed through.
-/

namespace LogListener

/-! ## Data -/

/-- The `struct ucred` of `<sys/socket.h>`: the credentials of the sending process. -/
structure ucred where
  pid : Int
  uid : Nat
  gid : Nat
deriving DecidableEq, Repr

/-- One control message of the ancillary data: the two fields of `struct cmsghdr` that
`HandleData` reads, and `CMSG_DATA(cmsg)` seen as a `struct ucred` (the cast of line 86). -/
structure cmsghdr where
  cmsg_level : Int
  cmsg_type : Int
  data : ucred
deriving DecidableEq, Repr

/-- The `log_time` carried by the header: seconds and nanoseconds. -/
structure log_time where
  tv_sec : Nat
  tv_nsec : Nat
deriving DecidableEq, Repr

/-- The fields of `android_log_header_t` that `HandleData` reads. -/
structure android_log_header_t where
  id : Nat
  tid : Nat
  realtime : log_time
deriving DecidableEq, Repr

/-- What the source takes from the platform headers, none of which is under `src/`. -/
structure Platform where
  /-- Number of value bits of `size_t` (and of `ssize_t`, sign bit included). -/
  size_bits : Nat
  /-- The value of `sizeof(android_log_header_t)`. -/
  sizeof_android_log_header_t : Nat
  /-- The view `reinterpret_cast<android_log_header_t*>(buffer)` of the first
  `sizeof(android_log_header_t)` bytes of the buffer. -/
  header_of : List Nat → android_log_header_t
  LOGGER_ENTRY_MAX_PAYLOAD : Nat
  AID_LOGD : Nat
  LOG_ID_MAIN : Nat
  LOG_ID_RADIO : Nat
  LOG_ID_EVENTS : Nat
  LOG_ID_SYSTEM : Nat
  LOG_ID_CRASH : Nat
  LOG_ID_STATS : Nat
  LOG_ID_SECURITY : Nat
  LOG_ID_KERNEL : Nat
  LOG_ID_MAX : Nat
  SOL_SOCKET : Int
  SCM_CREDENTIALS : Int

/-- The constant `UINT16_MAX` of `<stdint.h>`. -/
def UINT16_MAX : Nat := 65535

/-- Conversion of a signed value to `size_t`: reduction modulo `2 ^ size_bits`. -/
def to_size_t (P : Platform) (x : Int) : Nat :=
  (x % (2 : Int) ^ P.size_bits).toNat

/-- Conversion of an unsigned value to `ssize_t`: the two's complement reading of its
low `size_bits` bits. -/
def to_ssize_t (P : Platform) (x : Nat) : Int :=
  if x % 2 ^ P.size_bits < 2 ^ (P.size_bits - 1) then ((x % 2 ^ P.size_bits : Nat) : Int)
  else ((x % 2 ^ P.size_bits : Nat) : Int) - (2 : Int) ^ P.size_bits

/-- Conversion to `uint16_t`: reduction modulo `2 ^ 16`. -/
def to_uint16_t (x : Int) : Nat := (x % (2 : Int) ^ 16).toNat

/-- The value of `sizeof(buffer)` in `HandleData` (line 61):
`sizeof(android_log_header_t) + LOGGER_ENTRY_MAX_PAYLOAD + 1`. -/
def sizeof_buffer (P : Platform) : Nat :=
  P.sizeof_android_log_header_t + P.LOGGER_ENTRY_MAX_PAYLOAD + 1

/-- The `iov_len` given to `recvmsg` (line 62): `sizeof(buffer) - 1`. -/
def iov_len (P : Platform) : Nat := sizeof_buffer P - 1

/-- What one `recvmsg(socket_, &hdr, 0)` produced: its return value, the content of
`buffer` after the call (the bytes past the received ones are whatever the
uninitialised array held), and the control messages that `CMSG_FIRSTHDR` and
`CMSG_NXTHDR` enumerate, in order. -/
structure Received where
  n : Int
  buffer : List Nat
  control : List cmsghdr
deriving DecidableEq, Repr

/-- The answers of the two security-policy functions of `LogUtils.h` and
`private/android_logger.h`. -/
structure Policy where
  __android_log_security : Bool
  clientHasLogCredentials : Nat → Nat → Int → Bool

/-- The arguments of one call `logbuf_->log(log_id, realtime, uid, pid, tid, msg, len)`;
`msg` is the offset into `buffer` that the pointer argument points at. -/
structure LogCall where
  log_id : Nat
  realtime : log_time
  uid : Nat
  pid : Int
  tid : Nat
  msg : Nat
  len : Nat
deriving DecidableEq, Repr

/-- The effects of one `HandleData`: the buffer when it returns, the stores
`buffer[index] = value` it made, and its calls of `LogBuffer::log`. -/
structure Outcome where
  buffer : List Nat
  stores : List (Int × Nat)
  calls : List LogCall
deriving DecidableEq, Repr

/-- The bytes a call of `LogBuffer::log` is given: `len` bytes of the buffer from `msg`. -/
def LogCall.payload (c : LogCall) (buffer : List Nat) : List Nat :=
  (buffer.drop c.msg).take c.len

/-! ## HandleData -/

/-- The loop of lines 80-90: walk the chain from `CMSG_FIRSTHDR`, stop at the first
message with level `SOL_SOCKET` and type `SCM_CREDENTIALS`; `none` is `cred == nullptr`. -/
def findCred (P : Platform) : List cmsghdr → Option ucred
  | [] => none
  | cmsg :: rest =>
    if cmsg.cmsg_level = P.SOL_SOCKET ∧ cmsg.cmsg_type = P.SCM_CREDENTIALS then some cmsg.data
    else findCred P rest

/-- The last argument of the call of line 124, from the value `n` holds after line 118:
`((size_t)n <= UINT16_MAX) ? (uint16_t)n : UINT16_MAX`. -/
def clampLen (P : Platform) (n : Int) : Nat :=
  if to_size_t P n ≤ UINT16_MAX then to_uint16_t n else UINT16_MAX

/-- `LogListener::HandleData` (lines 58-125), after the `recvmsg` of line 73. -/
def HandleData (P : Platform) (pol : Policy) (r : Received) : Outcome :=
  let n := r.n
  if n ≤ to_ssize_t P P.sizeof_android_log_header_t then
    { buffer := r.buffer, stores := [], calls := [] }
  else
    -- buffer[n] = 0;
    let buffer := r.buffer.set n.toNat 0
    let stores := [(n, 0)]
    match findCred P r.control with
    | none => { buffer := buffer, stores := stores, calls := [] }
    | some cred =>
      if cred.uid = P.AID_LOGD then
        { buffer := buffer, stores := stores, calls := [] }
      else
        let header := P.header_of (buffer.take P.sizeof_android_log_header_t)
        let logId := header.id
        if logId ≥ P.LOG_ID_MAX ∨ logId = P.LOG_ID_KERNEL then
          { buffer := buffer, stores := stores, calls := [] }
        else if logId = P.LOG_ID_SECURITY ∧
            (!pol.__android_log_security ||
              !pol.clientHasLogCredentials cred.uid cred.gid cred.pid) = true then
          { buffer := buffer, stores := stores, calls := [] }
        else
          let msg := P.sizeof_android_log_header_t
          -- n -= sizeof(android_log_header_t);  (computed in size_t, stored in ssize_t)
          let n := to_ssize_t P (to_size_t P ((to_size_t P n : Int) -
            (P.sizeof_android_log_header_t : Int)))
          { buffer := buffer, stores := stores,
            calls := [{ log_id := logId, realtime := header.realtime, uid := cred.uid,
                        pid := cred.pid, tid := header.tid, msg := msg,
                        len := clampLen P n }] }

/-! ## StartListener and GetLogSocket -/

/-- What `GetLogSocket` gets from the system: the result of
`android_get_control_socket("logdw")`, the result of `socket_local_server`, and the
result of `setsockopt(sock, SOL_SOCKET, SO_PASSCRED, ...)` on a given descriptor. -/
structure SocketEnv where
  android_get_control_socket : Int
  socket_local_server : Int
  setsockopt : Int → Int

/-- `LogListener::GetLogSocket` (lines 127-141). -/
def GetLogSocket (env : SocketEnv) : Int :=
  let sock := env.android_get_control_socket
  if sock < 0 then
    let sock := env.socket_local_server
    if env.setsockopt sock ≠ 0 then -1 else sock
  else sock

/-- The data members of a `LogListener`; `logbuf_` is the address of the log buffer. -/
structure Listener where
  socket_ : Int
  logbuf_ : Nat
deriving DecidableEq, Repr

/-- The constructor (line 35). -/
def Listener.new (env : SocketEnv) (buf : Nat) : Listener :=
  { socket_ := GetLogSocket env, logbuf_ := buf }

/-- The result of `StartListener`: its return value, and the listeners for which it
started a detached thread running `ThreadFunction`. -/
structure Started where
  ret : Bool
  workers : List Listener
deriving DecidableEq, Repr

/-- `LogListener::StartListener` (lines 37-44). -/
def StartListener (this : Listener) : Started :=
  if this.socket_ ≤ 0 then { ret := false, workers := [] }
  else { ret := true, workers := [this] }

/-! ## The Android instance -/

/-- Little-endian value of a list of bytes. -/
def le_value : List Nat → Nat
  | [] => 0
  | b :: bs => b % 256 + 256 * le_value bs

/-- Modelled from the spec: the header struct and the constants that the source takes
from platform headers which are not under `src/`.  The header is the packed struct of
the wire format (`uint8 log_id; uint16 tid; uint32 realtime_sec; uint32 realtime_nsec`,
11 bytes, little-endian); the numbers are those of the Android headers
(`LOGGER_ENTRY_MAX_PAYLOAD` 4068, `AID_LOGD` 1036, `log_id_t` with main 0, radio 1,
events 2, system 3, crash 4, stats 5, security 6, kernel 7 and `LOG_ID_MAX` 8,
`SOL_SOCKET` 1, `SCM_CREDENTIALS` 2) on a 64-bit target.  It only serves to evaluate
the definitions; no theorem depends on these values. -/
def android : Platform where
  size_bits := 64
  sizeof_android_log_header_t := 11
  header_of := fun b =>
    { id := le_value (b.take 1)
      tid := le_value ((b.drop 1).take 2)
      realtime := { tv_sec := le_value ((b.drop 3).take 4)
                    tv_nsec := le_value ((b.drop 7).take 4) } }
  LOGGER_ENTRY_MAX_PAYLOAD := 4068
  AID_LOGD := 1036
  LOG_ID_MAIN := 0
  LOG_ID_RADIO := 1
  LOG_ID_EVENTS := 2
  LOG_ID_SYSTEM := 3
  LOG_ID_CRASH := 4
  LOG_ID_STATS := 5
  LOG_ID_SECURITY := 6
  LOG_ID_KERNEL := 7
  LOG_ID_MAX := 8
  SOL_SOCKET := 1
  SCM_CREDENTIALS := 2

/-! ## Facts about a platform that the theorems name as hypotheses -/

/-- The array `buffer` of `HandleData` is an object of the platform: its size is a
positive `ssize_t`, so that `sizeof` values keep their value when converted to
`ssize_t`. -/
def Platform.fits (P : Platform) : Prop :=
  sizeof_buffer P < 2 ^ (P.size_bits - 1)

instance (P : Platform) : Decidable P.fits := by
  unfold Platform.fits; infer_instance

/-- The enumerators of `log_id_t` name different channels, all below `LOG_ID_MAX`. -/
def Platform.enum_ok (P : Platform) : Prop :=
  [P.LOG_ID_MAIN, P.LOG_ID_RADIO, P.LOG_ID_EVENTS, P.LOG_ID_SYSTEM, P.LOG_ID_CRASH,
    P.LOG_ID_STATS, P.LOG_ID_SECURITY, P.LOG_ID_KERNEL].Nodup ∧
  ∀ i ∈ [P.LOG_ID_MAIN, P.LOG_ID_RADIO, P.LOG_ID_EVENTS, P.LOG_ID_SYSTEM, P.LOG_ID_CRASH,
    P.LOG_ID_STATS, P.LOG_ID_SECURITY, P.LOG_ID_KERNEL], i < P.LOG_ID_MAX

instance (P : Platform) : Decidable P.enum_ok := by
  unfold Platform.enum_ok; infer_instance

/-- The credentials message of an ancillary-data chain: `c` is in the chain with level
`SOL_SOCKET` and type `SCM_CREDENTIALS`, and no message before it is of that kind. -/
def AttachedCredentials (P : Platform) (control : List cmsghdr) (c : cmsghdr) : Prop :=
  ∃ pre post, control = pre ++ c :: post ∧
    (∀ d ∈ pre, ¬ (d.cmsg_level = P.SOL_SOCKET ∧ d.cmsg_type = P.SCM_CREDENTIALS)) ∧
    c.cmsg_level = P.SOL_SOCKET ∧ c.cmsg_type = P.SCM_CREDENTIALS

/-! ## Concrete datagrams -/

/-- The bytes of a header on the wire of `android`. -/
def wire_header (id tid sec nsec : Nat) : List Nat :=
  [id % 256, tid % 256, tid / 256 % 256,
   sec % 256, sec / 256 % 256, sec / 65536 % 256, sec / 16777216 % 256,
   nsec % 256, nsec / 256 % 256, nsec / 65536 % 256, nsec / 16777216 % 256]

/-- The credentials message the kernel attaches for a writer `(pid, uid, gid)`. -/
def scm_credentials (pid : Int) (uid gid : Nat) : cmsghdr :=
  { cmsg_level := 1, cmsg_type := 2, data := { pid := pid, uid := uid, gid := gid } }

/-- The 11 payload bytes `"\x04tag\0hello\0"`. -/
def hello_payload : List Nat := [4, 116, 97, 103, 0, 104, 101, 108, 108, 111, 0]

/-- The receive of a datagram `header ++ payload` from a writer `(pid, uid, gid)`: the
buffer holds the datagram followed by `0xAA` up to `sizeof(buffer)`. -/
def datagram (id tid sec nsec : Nat) (payload : List Nat) (pid : Int) (uid gid : Nat) :
    Received :=
  { n := (11 + payload.length : Nat)
    buffer := wire_header id tid sec nsec ++ payload ++
      List.replicate (sizeof_buffer android - 11 - payload.length) 170
    control := [scm_credentials pid uid gid] }

/-- A policy that answers `enabled` to `__android_log_security()` and `allowed` to every
`clientHasLogCredentials(uid, gid, pid)`. -/
def const_policy (enabled allowed : Bool) : Policy :=
  { __android_log_security := enabled
    clientHasLogCredentials := fun _ _ _ => allowed }

/-- Scenario 1: writer 10001 (pid 77) sends `MAIN`, tid 42, realtime (1700000000, 0). -/
def happy_path : Received := datagram 0 42 1700000000 0 hello_payload 77 10001 10001

/-- The call of `LogBuffer::log` expected for `happy_path`. -/
def happy_call : LogCall :=
  { log_id := 0, realtime := { tv_sec := 1700000000, tv_nsec := 0 }, uid := 10001,
    pid := 77, tid := 42, msg := 11, len := 11 }

/-- Scenario 2: the same record sent by logd itself (uid 1036). -/
def self_log : Received := datagram 0 42 1700000000 0 hello_payload 77 1036 1036

/-- Scenario 3: writer 10001 sends a record with log id `KERNEL` (7). -/
def kernel_id : Received := datagram 7 42 1700000000 0 hello_payload 77 10001 10001

/-- A record with log id `SECURITY` (6) from writer 10001. -/
def security_record : Received := datagram 6 42 1700000000 0 hello_payload 77 10001 10001

/-- Scenario 7: the happy-path datagram received with a control message that is not
`SCM_CREDENTIALS` (`SCM_RIGHTS`, type 1) and no other. -/
def no_credentials : Received :=
  { happy_path with control := [{ cmsg_level := 1, cmsg_type := 1,
                                  data := { pid := 77, uid := 10001, gid := 10001 } }] }

/-- A system in which `android_get_control_socket("logdw")` hands over descriptor 0. -/
def descriptor_zero_env : SocketEnv :=
  { android_get_control_socket := 0, socket_local_server := -1, setsockopt := fun _ => -1 }

/-! ## Socket options, and one iteration of the worker -/

/-- `GetLogSocket` (lines 127-141) together with its effect on the socket option
`SO_PASSCRED`: `passcred fd` tells whether the option is on for descriptor `fd` when
`GetLogSocket` is entered, and the second component tells it when it returns.  The only
call that touches the option is the `setsockopt` of line 136, which has turned it on
for its descriptor when it returns 0. -/
def GetLogSocket_passcred (env : SocketEnv) (passcred : Int → Bool) : Int × (Int → Bool) :=
  let sock := env.android_get_control_socket
  if sock < 0 then
    let sock := env.socket_local_server
    if env.setsockopt sock ≠ 0 then (-1, passcred)
    else (sock, fun fd => if fd = sock then true else passcred fd)
  else (sock, passcred)

/-- What `HandleData` does to the world outside its locals, and the store into its
local buffer. -/
inductive Effect where
  /-- The call `recvmsg(fd, &hdr, 0)` of line 73. -/
  | recvmsg (fd : Int)
  /-- The store `buffer[index] = value` of line 78. -/
  | store (index : Int) (value : Nat)
  /-- The call `logbuf->log(...)` of line 123 on the log buffer at `logbuf`. -/
  | log (logbuf : Nat) (call : LogCall)
deriving DecidableEq, Repr

/-- One `HandleData` on a listener: the listener afterwards and the effects in order. -/
structure Step where
  listener : Listener
  effects : List Effect
deriving DecidableEq, Repr

/-- `LogListener::HandleData` (lines 58-125) as a member function: `recvmsg` is called
on `socket_` and produces `r`, the call of line 123 goes to `logbuf_`, and no member
is assigned. -/
def Listener.HandleData (P : Platform) (pol : Policy) (this : Listener) (r : Received) :
    Step :=
  let out := LogListener.HandleData P pol r
  { listener := this
    effects := Effect.recvmsg this.socket_ ::
      (out.stores.map (fun s => Effect.store s.1 s.2) ++
        out.calls.map (fun c => Effect.log this.logbuf_ c)) }

/-- The rejecting cases of the receive loop: length at or below the header size, no
credentials attached, credentials of uid `AID_LOGD`, header id `KERNEL` or not below
`LOG_ID_MAX`, header id `SECURITY` with a policy answer false. -/
def Rejected (P : Platform) (pol : Policy) (r : Received) : Prop :=
  r.n ≤ (P.sizeof_android_log_header_t : Int) ∨
  (∀ c ∈ r.control, ¬ (c.cmsg_level = P.SOL_SOCKET ∧ c.cmsg_type = P.SCM_CREDENTIALS)) ∨
  (∃ c, AttachedCredentials P r.control c ∧ c.data.uid = P.AID_LOGD) ∨
  ((P.header_of (r.buffer.take P.sizeof_android_log_header_t)).id = P.LOG_ID_KERNEL ∨
    P.LOG_ID_MAX ≤ (P.header_of (r.buffer.take P.sizeof_android_log_header_t)).id) ∨
  ((P.header_of (r.buffer.take P.sizeof_android_log_header_t)).id = P.LOG_ID_SECURITY ∧
    (pol.__android_log_security = false ∨
      ∃ c, AttachedCredentials P r.control c ∧
        pol.clientHasLogCredentials c.data.uid c.data.gid c.data.pid = false))

/-! ## Further concrete inputs -/

/-- A system without a preopened `logdw` socket, where `socket_local_server` gives
descriptor 5 and `setsockopt` fails. -/
def passcred_failure_env : SocketEnv :=
  { android_get_control_socket := -1, socket_local_server := 5, setsockopt := fun _ => -1 }

/-- A system without a preopened `logdw` socket, where `socket_local_server` gives
descriptor 5 and `setsockopt` succeeds. -/
def standalone_env : SocketEnv :=
  { android_get_control_socket := -1, socket_local_server := 5, setsockopt := fun _ => 0 }

/-- A system where the service manager hands over descriptor 3 for `logdw`. -/
def adopted_env : SocketEnv :=
  { android_get_control_socket := 3, socket_local_server := -1, setsockopt := fun _ => -1 }

/-- No descriptor has `SO_PASSCRED` on. -/
def passcred_off : Int → Bool := fun _ => false

/-- A receive of the maximum length `iov_len` of `android`, 4079 bytes. -/
def max_receive : Received := { happy_path with n := 4079 }

/-- Scenario 6: the 70000 bytes a writer sends as payload. -/
def oversize_payload : List Nat := List.replicate 70000 65

/-- Scenario 6: the receive of the header and `oversize_payload`, truncated by the
kernel to the 4079 bytes of the iov; the last byte of the buffer keeps `0xAA`. -/
def oversize : Received :=
  { n := 4079
    buffer := wire_header 0 42 1700000000 0 ++ oversize_payload.take 4068 ++ [170]
    control := [scm_credentials 77 10001 10001] }

/-- A datagram of the length, credentials and log id of `happy_path`, with another
tid, another realtime and another payload. -/
def other_fields : Received :=
  datagram 0 999 12345 678 [1, 2, 3, 4, 5, 6, 7, 8, 9, 10, 11] 77 10001 10001

/-! ## Lemmas on the integer conversions -/

theorem two_pow_pred_le (b : Nat) : 2 ^ (b - 1) ≤ 2 ^ b :=
  Nat.pow_le_pow_right (by norm_num) (Nat.sub_le _ _)

theorem to_ssize_t_eq (P : Platform) (x : Nat) (h : x < 2 ^ (P.size_bits - 1)) :
    to_ssize_t P x = (x : Int) := by
  have hm : x % 2 ^ P.size_bits = x :=
    Nat.mod_eq_of_lt (lt_of_lt_of_le h (two_pow_pred_le _))
  simp [to_ssize_t, hm, h]

theorem to_size_t_eq (P : Platform) (x : Int) (h0 : 0 ≤ x)
    (h : x < 2 ^ (P.size_bits - 1)) : ((to_size_t P x : Nat) : Int) = x := by
  have h2 : (2 : Int) ^ (P.size_bits - 1) ≤ 2 ^ P.size_bits := by
    exact_mod_cast two_pow_pred_le P.size_bits
  unfold to_size_t
  rw [Int.emod_eq_of_lt h0 (lt_of_lt_of_le h h2)]
  exact Int.toNat_of_nonneg h0

theorem sizeof_header_lt (P : Platform) (hP : P.fits) :
    P.sizeof_android_log_header_t < 2 ^ (P.size_bits - 1) := by
  unfold Platform.fits sizeof_buffer at hP
  omega

theorem to_ssize_t_sizeof (P : Platform) (hP : P.fits) :
    to_ssize_t P P.sizeof_android_log_header_t = (P.sizeof_android_log_header_t : Int) :=
  to_ssize_t_eq P _ (sizeof_header_lt P hP)

/-- The value `n` holds after line 118, for a received length above the header size. -/
theorem n_after_sub (P : Platform) (n : Int)
    (hlo : (P.sizeof_android_log_header_t : Int) < n) (hhi : n < 2 ^ (P.size_bits - 1)) :
    to_ssize_t P (to_size_t P ((to_size_t P n : Int) - (P.sizeof_android_log_header_t : Int)))
      = n - P.sizeof_android_log_header_t := by
  have h0 : (0 : Int) ≤ n := by omega
  rw [to_size_t_eq P n h0 hhi]
  have h1 : (0 : Int) ≤ n - P.sizeof_android_log_header_t := by omega
  have h2 : n - (P.sizeof_android_log_header_t : Int) < 2 ^ (P.size_bits - 1) := by omega
  have h3 := to_size_t_eq P _ h1 h2
  have h4 : to_size_t P (n - P.sizeof_android_log_header_t) < 2 ^ (P.size_bits - 1) := by
    have : ((to_size_t P (n - P.sizeof_android_log_header_t) : Nat) : Int)
        < ((2 ^ (P.size_bits - 1) : Nat) : Int) := by
      rw [h3]; push_cast; exact h2
    exact_mod_cast this
  rw [to_ssize_t_eq P _ h4, h3]

/-- The clamp of line 124 on a value that is a non-negative `ssize_t`. -/
theorem clampLen_eq (P : Platform) (m : Int) (h0 : 0 ≤ m) (hhi : m < 2 ^ (P.size_bits - 1)) :
    clampLen P m = min m.toNat UINT16_MAX := by
  have h := to_size_t_eq P m h0 hhi
  have hm : to_size_t P m = m.toNat := by
    have : ((to_size_t P m : Nat) : Int) = (m.toNat : Int) := by
      rw [h, Int.toNat_of_nonneg h0]
    exact_mod_cast this
  unfold clampLen to_uint16_t
  rw [hm]
  unfold UINT16_MAX
  split_ifs with hc
  · rw [Nat.min_eq_left hc]; omega
  · rw [Nat.min_eq_right (by omega)]

/-! ## Lemmas on the walk of the control messages -/

theorem findCred_eq_none (P : Platform) (control : List cmsghdr)
    (h : ∀ c ∈ control, ¬ (c.cmsg_level = P.SOL_SOCKET ∧ c.cmsg_type = P.SCM_CREDENTIALS)) :
    findCred P control = none := by
  induction control with
  | nil => rfl
  | cons c rest ih =>
    have hc := h c (List.mem_cons_self _ _)
    have hrest := ih (fun d hd => h d (List.mem_cons_of_mem _ hd))
    simp only [findCred, if_neg hc, hrest]

theorem findCred_eq_some (P : Platform) (control : List cmsghdr) (cred : ucred)
    (h : findCred P control = some cred) :
    ∃ pre c post, control = pre ++ c :: post ∧
      (∀ d ∈ pre, ¬ (d.cmsg_level = P.SOL_SOCKET ∧ d.cmsg_type = P.SCM_CREDENTIALS)) ∧
      c.cmsg_level = P.SOL_SOCKET ∧ c.cmsg_type = P.SCM_CREDENTIALS ∧ c.data = cred := by
  induction control with
  | nil => simp [findCred] at h
  | cons c rest ih =>
    by_cases hc : c.cmsg_level = P.SOL_SOCKET ∧ c.cmsg_type = P.SCM_CREDENTIALS
    · simp only [findCred, if_pos hc, Option.some.injEq] at h
      exact ⟨[], c, rest, rfl, by simp, hc.1, hc.2, h⟩
    · simp only [findCred, if_neg hc] at h
      obtain ⟨pre, c', post, h1, h2, h3⟩ := ih h
      refine ⟨c :: pre, c', post, by simp [h1], ?_, h3⟩
      intro d hd
      rcases List.mem_cons.mp hd with rfl | hd
      · exact hc
      · exact h2 d hd

/-! ## Lemmas on the log-id enumeration -/

/-- The six plain channels are below `LOG_ID_MAX` and are neither `KERNEL` nor
`SECURITY`. -/
theorem enum_ok_plain (P : Platform) (h : P.enum_ok) (i : Nat)
    (hi : i ∈ [P.LOG_ID_MAIN, P.LOG_ID_RADIO, P.LOG_ID_EVENTS, P.LOG_ID_SYSTEM,
      P.LOG_ID_CRASH, P.LOG_ID_STATS]) :
    i < P.LOG_ID_MAX ∧ i ≠ P.LOG_ID_KERNEL ∧ i ≠ P.LOG_ID_SECURITY := by
  obtain ⟨hnd, hlt⟩ := h
  have hmem : i ∈ [P.LOG_ID_MAIN, P.LOG_ID_RADIO, P.LOG_ID_EVENTS, P.LOG_ID_SYSTEM,
      P.LOG_ID_CRASH, P.LOG_ID_STATS, P.LOG_ID_SECURITY, P.LOG_ID_KERNEL] := by
    simp only [List.mem_cons, List.mem_singleton, List.not_mem_nil, or_false] at hi ⊢
    tauto
  refine ⟨hlt i hmem, ?_, ?_⟩
  · rintro rfl
    simp only [List.nodup_cons, List.mem_cons, List.mem_singleton, List.not_mem_nil,
      or_false, not_or, List.nodup_nil, and_true] at hnd
    simp only [List.mem_cons, List.mem_singleton, List.not_mem_nil, or_false] at hi
    tauto
  · rintro rfl
    simp only [List.nodup_cons, List.mem_cons, List.mem_singleton, List.not_mem_nil,
      or_false, not_or, List.nodup_nil, and_true] at hnd
    simp only [List.mem_cons, List.mem_singleton, List.not_mem_nil, or_false] at hi
    tauto

/-- `SECURITY` is below `LOG_ID_MAX` and is not `KERNEL`. -/
theorem enum_ok_security (P : Platform) (h : P.enum_ok) :
    P.LOG_ID_SECURITY < P.LOG_ID_MAX ∧ P.LOG_ID_SECURITY ≠ P.LOG_ID_KERNEL := by
  obtain ⟨hnd, hlt⟩ := h
  refine ⟨hlt _ (by simp), ?_⟩
  simp only [List.nodup_cons, List.mem_cons, List.mem_singleton, List.not_mem_nil,
    or_false, not_or, List.nodup_nil, and_true] at hnd
  tauto

/-! ## Lemmas on HandleData -/

/-- The header that `HandleData` reads after the store of line 78 is the header that
was received: the store is past it. -/
theorem header_after_store (P : Platform) (hP : P.fits) (r : Received)
    (hn : ¬ r.n ≤ to_ssize_t P P.sizeof_android_log_header_t) :
    (r.buffer.set r.n.toNat 0).take P.sizeof_android_log_header_t
      = r.buffer.take P.sizeof_android_log_header_t := by
  rw [to_ssize_t_sizeof P hP] at hn
  exact List.take_set_of_lt 0 r.buffer (by omega)

/-- Every call of `LogBuffer::log` passed all the tests of lines 74-115 and has the
arguments of line 123. -/
theorem mem_calls (P : Platform) (pol : Policy) (r : Received) (call : LogCall)
    (h : call ∈ (HandleData P pol r).calls) :
    ¬ r.n ≤ to_ssize_t P P.sizeof_android_log_header_t ∧
    ∃ cred, findCred P r.control = some cred ∧ cred.uid ≠ P.AID_LOGD ∧
      ∃ header, header = P.header_of
          ((r.buffer.set r.n.toNat 0).take P.sizeof_android_log_header_t) ∧
        header.id < P.LOG_ID_MAX ∧ header.id ≠ P.LOG_ID_KERNEL ∧
        (header.id = P.LOG_ID_SECURITY → pol.__android_log_security = true ∧
          pol.clientHasLogCredentials cred.uid cred.gid cred.pid = true) ∧
        call = { log_id := header.id, realtime := header.realtime, uid := cred.uid,
                 pid := cred.pid, tid := header.tid, msg := P.sizeof_android_log_header_t,
                 len := clampLen P (to_ssize_t P (to_size_t P ((to_size_t P r.n : Int) -
                   (P.sizeof_android_log_header_t : Int)))) } := by
  by_cases h1 : r.n ≤ to_ssize_t P P.sizeof_android_log_header_t
  · simp [HandleData, h1] at h
  refine ⟨h1, ?_⟩
  cases hcred : findCred P r.control with
  | none => simp [HandleData, h1, hcred] at h
  | some cred =>
    by_cases h2 : cred.uid = P.AID_LOGD
    · simp [HandleData, h1, hcred, h2] at h
    by_cases h3 : (P.header_of
        ((r.buffer.set r.n.toNat 0).take P.sizeof_android_log_header_t)).id ≥ P.LOG_ID_MAX ∨
        (P.header_of
        ((r.buffer.set r.n.toNat 0).take P.sizeof_android_log_header_t)).id = P.LOG_ID_KERNEL
    · simp only [HandleData, if_neg h1, hcred, if_neg h2, if_pos h3] at h
      simp at h
    by_cases h4 : (P.header_of
        ((r.buffer.set r.n.toNat 0).take P.sizeof_android_log_header_t)).id
          = P.LOG_ID_SECURITY ∧
        (!pol.__android_log_security ||
          !pol.clientHasLogCredentials cred.uid cred.gid cred.pid) = true
    · simp only [HandleData, if_neg h1, hcred, if_neg h2, if_neg h3, if_pos h4] at h
      simp at h
    simp only [HandleData, if_neg h1, hcred, if_neg h2, if_neg h3, if_neg h4,
      List.mem_singleton] at h
    refine ⟨cred, rfl, h2, _, rfl, by omega, by omega, ?_, h⟩
    intro hs
    simp only [hs, true_and, Bool.or_eq_true, Bool.not_eq_true', not_or,
      Bool.not_eq_false] at h4
    exact h4

/-- A receive that passes all the tests of lines 74-115 makes exactly the call of
line 123. -/
theorem calls_of_pass (P : Platform) (pol : Policy) (r : Received) (cred : ucred)
    (h1 : ¬ r.n ≤ to_ssize_t P P.sizeof_android_log_header_t)
    (hcred : findCred P r.control = some cred) (h2 : cred.uid ≠ P.AID_LOGD)
    (h3 : (P.header_of ((r.buffer.set r.n.toNat 0).take P.sizeof_android_log_header_t)).id
      < P.LOG_ID_MAX)
    (h4 : (P.header_of ((r.buffer.set r.n.toNat 0).take P.sizeof_android_log_header_t)).id
      ≠ P.LOG_ID_KERNEL)
    (h5 : (P.header_of ((r.buffer.set r.n.toNat 0).take P.sizeof_android_log_header_t)).id
        = P.LOG_ID_SECURITY → pol.__android_log_security = true ∧
          pol.clientHasLogCredentials cred.uid cred.gid cred.pid = true) :
    HandleData P pol r =
      { buffer := r.buffer.set r.n.toNat 0, stores := [(r.n, 0)],
        calls := [{
          log_id := (P.header_of
            ((r.buffer.set r.n.toNat 0).take P.sizeof_android_log_header_t)).id,
          realtime := (P.header_of
            ((r.buffer.set r.n.toNat 0).take P.sizeof_android_log_header_t)).realtime,
          uid := cred.uid, pid := cred.pid,
          tid := (P.header_of
            ((r.buffer.set r.n.toNat 0).take P.sizeof_android_log_header_t)).tid,
          msg := P.sizeof_android_log_header_t,
          len := clampLen P (to_ssize_t P (to_size_t P ((to_size_t P r.n : Int) -
                   (P.sizeof_android_log_header_t : Int)))) }] } := by
  unfold HandleData
  simp only [if_neg h1, hcred, if_neg h2]
  rw [if_neg (by omega), if_neg]
  intro ⟨hs, hp⟩
  have := h5 hs
  simp [this.1, this.2] at hp

theorem findCred_of_attached (P : Platform) (control : List cmsghdr) (c : cmsghdr)
    (h : AttachedCredentials P control c) : findCred P control = some c.data := by
  obtain ⟨pre, post, rfl, hpre, hl, ht⟩ := h
  induction pre with
  | nil => simp [findCred, hl, ht]
  | cons d pre ih =>
    have hd := hpre d (List.mem_cons_self _ _)
    simp only [List.cons_append, findCred, if_neg hd]
    exact ih (fun e he => hpre e (List.mem_cons_of_mem _ he))

theorem attached_of_findCred (P : Platform) (control : List cmsghdr) (cred : ucred)
    (h : findCred P control = some cred) :
    ∃ c, AttachedCredentials P control c ∧ c.data = cred := by
  obtain ⟨pre, c, post, h1, h2, h3, h4, h5⟩ := findCred_eq_some P control cred h
  exact ⟨c, ⟨pre, post, h1, h2, h3, h4⟩, h5⟩

/-! ## The claims -/

/-- C1: every call of `LogBuffer::log` that `HandleData` makes carries the uid and pid
of the credentials message attached to the datagram (the first control message with
level `SOL_SOCKET` and type `SCM_CREDENTIALS`), and the id, realtime and tid of the
header at the start of the received buffer; its message pointer is the buffer plus
`sizeof(android_log_header_t)`. -/
theorem HandleData_call_arguments (P : Platform) (hP : P.fits) (pol : Policy)
    (r : Received) (call : LogCall) (h : call ∈ (HandleData P pol r).calls) :
    ∃ c, AttachedCredentials P r.control c ∧
      call.uid = c.data.uid ∧ call.pid = c.data.pid ∧
      call.log_id = (P.header_of (r.buffer.take P.sizeof_android_log_header_t)).id ∧
      call.realtime =
        (P.header_of (r.buffer.take P.sizeof_android_log_header_t)).realtime ∧
      call.tid = (P.header_of (r.buffer.take P.sizeof_android_log_header_t)).tid ∧
      call.msg = P.sizeof_android_log_header_t := by
  obtain ⟨h1, cred, hcred, _, header, hh, _, _, _, hcall⟩ := mem_calls P pol r call h
  obtain ⟨c, hc, hdata⟩ := attached_of_findCred P r.control cred hcred
  rw [header_after_store P hP r h1] at hh
  subst hh
  refine ⟨c, hc, ?_⟩
  rw [hcall, hdata]
  exact ⟨rfl, rfl, rfl, rfl, rfl, rfl⟩

/-- Witness of C1 on scenario 1: the call made for `happy_path` has uid 10001 and pid 77
of the attached credentials, and id 0, realtime (1700000000, 0), tid 42 of the header. -/
theorem HandleData_call_arguments_witness :
    happy_call ∈ (HandleData android (const_policy false false) happy_path).calls ∧
    ∃ c, AttachedCredentials android happy_path.control c ∧
      happy_call.uid = c.data.uid ∧ happy_call.pid = c.data.pid ∧
      happy_call.log_id = (android.header_of (happy_path.buffer.take 11)).id ∧
      happy_call.realtime = (android.header_of (happy_path.buffer.take 11)).realtime ∧
      happy_call.tid = (android.header_of (happy_path.buffer.take 11)).tid ∧
      happy_call.msg = 11 :=
  ⟨by decide,
   HandleData_call_arguments android (by decide) (const_policy false false) happy_path
     happy_call (by decide)⟩

/-- C2: a datagram whose attached credentials carry uid `AID_LOGD` produces no call of
`LogBuffer::log`, whatever its length, buffer content, further control messages and
policy answers. -/
theorem HandleData_drops_own_uid (P : Platform) (pol : Policy) (r : Received)
    (c : cmsghdr) (hc : AttachedCredentials P r.control c)
    (hu : c.data.uid = P.AID_LOGD) :
    (HandleData P pol r).calls = [] := by
  rw [List.eq_nil_iff_forall_not_mem]
  intro call h
  obtain ⟨_, cred, hcred, hne, _⟩ := mem_calls P pol r call h
  rw [findCred_of_attached P r.control c hc] at hcred
  cases hcred
  exact hne hu

/-- Witness of C2 on scenario 2: the record sent with uid 1036 is not forwarded, even
with both policy answers positive. -/
theorem HandleData_drops_own_uid_witness :
    AttachedCredentials android self_log.control (scm_credentials 77 1036 1036) ∧
    (HandleData android (const_policy true true) self_log).calls = [] :=
  ⟨⟨[], [], rfl, by simp, rfl, rfl⟩,
   HandleData_drops_own_uid android (const_policy true true) self_log
     (scm_credentials 77 1036 1036) ⟨[], [], rfl, by simp, rfl, rfl⟩ rfl⟩

/-- C3: a datagram whose header id is `LOG_ID_KERNEL` or is not below `LOG_ID_MAX`
produces no call of `LogBuffer::log`, whatever the credentials and policy answers. -/
theorem HandleData_drops_kernel_and_unknown_id (P : Platform) (hP : P.fits)
    (pol : Policy) (r : Received)
    (hid : (P.header_of (r.buffer.take P.sizeof_android_log_header_t)).id = P.LOG_ID_KERNEL ∨
      P.LOG_ID_MAX ≤ (P.header_of (r.buffer.take P.sizeof_android_log_header_t)).id) :
    (HandleData P pol r).calls = [] := by
  rw [List.eq_nil_iff_forall_not_mem]
  intro call h
  obtain ⟨h1, cred, _, _, header, hh, hmax, hk, _⟩ := mem_calls P pol r call h
  rw [header_after_store P hP r h1] at hh
  subst hh
  rcases hid with hid | hid
  · exact hk hid
  · omega

/-- Witness of C3 on scenario 3: the record with header id 7 (`KERNEL`) is not
forwarded. -/
theorem HandleData_drops_kernel_and_unknown_id_witness :
    (android.header_of (kernel_id.buffer.take 11)).id = 7 ∧
    (HandleData android (const_policy true true) kernel_id).calls = [] :=
  ⟨by decide,
   HandleData_drops_kernel_and_unknown_id android (by decide) (const_policy true true)
     kernel_id (Or.inl (by decide))⟩

/-- C4: for a datagram whose header id is `LOG_ID_SECURITY`, a call of `LogBuffer::log`
implies that `__android_log_security()` answered true and that
`clientHasLogCredentials` answered true on the uid, gid and pid of the attached
credentials; and when either answer is false, no call is made. -/
theorem HandleData_security_gate (P : Platform) (hP : P.fits) (pol : Policy)
    (r : Received)
    (hid : (P.header_of (r.buffer.take P.sizeof_android_log_header_t)).id
      = P.LOG_ID_SECURITY) :
    ((HandleData P pol r).calls ≠ [] →
      ∃ c, AttachedCredentials P r.control c ∧ pol.__android_log_security = true ∧
        pol.clientHasLogCredentials c.data.uid c.data.gid c.data.pid = true) ∧
    (∀ c, AttachedCredentials P r.control c →
      (pol.__android_log_security = false ∨
        pol.clientHasLogCredentials c.data.uid c.data.gid c.data.pid = false) →
      (HandleData P pol r).calls = []) := by
  have key : ∀ call ∈ (HandleData P pol r).calls,
      ∃ c, AttachedCredentials P r.control c ∧ pol.__android_log_security = true ∧
        pol.clientHasLogCredentials c.data.uid c.data.gid c.data.pid = true := by
    intro call h
    obtain ⟨h1, cred, hcred, _, header, hh, _, _, hsec, _⟩ := mem_calls P pol r call h
    rw [header_after_store P hP r h1] at hh
    subst hh
    obtain ⟨c, hc, hdata⟩ := attached_of_findCred P r.control cred hcred
    subst hdata
    exact ⟨c, hc, hsec hid⟩
  constructor
  · intro hne
    obtain ⟨call, hcall⟩ := List.exists_mem_of_ne_nil _ hne
    exact key call hcall
  · intro c hc hfalse
    rw [List.eq_nil_iff_forall_not_mem]
    intro call h
    obtain ⟨c', hc', hs, hp⟩ := key call h
    have e : some c'.data = some c.data := by
      rw [← findCred_of_attached P r.control c' hc', ← findCred_of_attached P r.control c hc]
    have e' : c'.data = c.data := Option.some.inj e
    rcases hfalse with hf | hf
    · rw [hf] at hs; cases hs
    · rw [e', hf] at hp; cases hp

/-- Witness of C4 on scenarios 4 and 5: the `SECURITY` record of writer 10001 that is
forwarded under the policy (true, true) had both answers true on its credentials, and
with security logging disabled the same record is not forwarded. -/
theorem HandleData_security_gate_witness :
    (android.header_of (security_record.buffer.take 11)).id = 6 ∧
    (HandleData android (const_policy true true) security_record).calls ≠ [] ∧
    (∃ c, AttachedCredentials android security_record.control c ∧
      (const_policy true true).__android_log_security = true ∧
      (const_policy true true).clientHasLogCredentials c.data.uid c.data.gid c.data.pid
        = true) ∧
    (HandleData android (const_policy false true) security_record).calls = [] :=
  ⟨by decide, by decide,
   (HandleData_security_gate android (by decide) (const_policy true true) security_record
     (by decide)).1 (by decide),
   (HandleData_security_gate android (by decide) (const_policy false true) security_record
     (by decide)).2 (scm_credentials 77 10001 10001) ⟨[], [], rfl, by simp, rfl, rfl⟩
     (Or.inl rfl)⟩

/-- C5: a datagram whose ancillary-data chain holds no control message with level
`SOL_SOCKET` and type `SCM_CREDENTIALS` (an empty chain, or messages of other kinds
only) produces no call of `LogBuffer::log`. -/
theorem HandleData_drops_without_credentials (P : Platform) (pol : Policy) (r : Received)
    (hnone : ∀ c ∈ r.control,
      ¬ (c.cmsg_level = P.SOL_SOCKET ∧ c.cmsg_type = P.SCM_CREDENTIALS)) :
    (HandleData P pol r).calls = [] := by
  rw [List.eq_nil_iff_forall_not_mem]
  intro call h
  obtain ⟨_, cred, hcred, _⟩ := mem_calls P pol r call h
  rw [findCred_eq_none P r.control hnone] at hcred
  cases hcred

/-- Witness of C5 on scenario 7: the happy-path datagram received with an `SCM_RIGHTS`
message instead of credentials is not forwarded. -/
theorem HandleData_drops_without_credentials_witness :
    (HandleData android (const_policy true true) no_credentials).calls = [] :=
  HandleData_drops_without_credentials android (const_policy true true) no_credentials
    (by decide)

/-- C6: when the result `n` of `recvmsg` is at most `sizeof(android_log_header_t)`,
negative results included, `HandleData` returns with the buffer as received, no
store into it and no call of `LogBuffer::log`. -/
theorem HandleData_size_floor (P : Platform) (hP : P.fits) (pol : Policy) (r : Received)
    (hn : r.n ≤ (P.sizeof_android_log_header_t : Int)) :
    HandleData P pol r = { buffer := r.buffer, stores := [], calls := [] } := by
  unfold HandleData
  simp only
  rw [if_pos]
  rw [to_ssize_t_sizeof P hP]
  exact hn

/-- Witness of C6: a failed receive (`n = -1`) and a datagram of exactly the header
size (`n = 11`) leave the buffer untouched and forward nothing. -/
theorem HandleData_size_floor_witness :
    HandleData android (const_policy true true) { happy_path with n := -1 }
      = { buffer := happy_path.buffer, stores := [], calls := [] } ∧
    HandleData android (const_policy true true) { happy_path with n := 11 }
      = { buffer := happy_path.buffer, stores := [], calls := [] } :=
  ⟨HandleData_size_floor android (by decide) (const_policy true true)
     { happy_path with n := -1 } (by decide),
   HandleData_size_floor android (by decide) (const_policy true true)
     { happy_path with n := 11 } (by decide)⟩

/-- C7: for every call of `LogBuffer::log`, with `n` the received length (an `ssize_t`),
`n` exceeds the header size and the length passed is
`min(n - sizeof(android_log_header_t), UINT16_MAX)`; it is at most `UINT16_MAX`, so the
conversion to `uint16_t` leaves it unchanged. -/
theorem HandleData_payload_length (P : Platform) (hP : P.fits) (pol : Policy)
    (r : Received) (hn : r.n < 2 ^ (P.size_bits - 1))
    (call : LogCall) (h : call ∈ (HandleData P pol r).calls) :
    (P.sizeof_android_log_header_t : Int) < r.n ∧
    (call.len : Int) = min (r.n - P.sizeof_android_log_header_t) (UINT16_MAX : Int) ∧
    call.len ≤ UINT16_MAX ∧ to_uint16_t (call.len : Int) = call.len := by
  obtain ⟨h1, cred, _, _, header, _, _, _, _, hcall⟩ := mem_calls P pol r call h
  rw [to_ssize_t_sizeof P hP] at h1
  have hlo : (P.sizeof_android_log_header_t : Int) < r.n := by omega
  rw [n_after_sub P r.n hlo hn] at hcall
  have h0 : (0 : Int) ≤ r.n - P.sizeof_android_log_header_t := by omega
  have hhi : r.n - (P.sizeof_android_log_header_t : Int) < 2 ^ (P.size_bits - 1) := by omega
  rw [clampLen_eq P _ h0 hhi] at hcall
  have hlen : call.len = min (r.n - (P.sizeof_android_log_header_t : Int)).toNat UINT16_MAX := by
    rw [hcall]
  refine ⟨hlo, ?_, ?_, ?_⟩
  · rw [hlen]
    push_cast
    rw [Int.toNat_of_nonneg h0]
  · rw [hlen]; exact Nat.min_le_right _ _
  · have : call.len ≤ UINT16_MAX := by rw [hlen]; exact Nat.min_le_right _ _
    unfold to_uint16_t
    unfold UINT16_MAX at this
    omega

/-- Witness of C7 on scenario 1: 22 bytes received, 11 bytes of payload passed. -/
theorem HandleData_payload_length_witness :
    (11 : Int) < happy_path.n ∧
    (happy_call.len : Int) = min (happy_path.n - 11) (UINT16_MAX : Int) ∧
    happy_call.len ≤ UINT16_MAX ∧ to_uint16_t (happy_call.len : Int) = happy_call.len :=
  HandleData_payload_length android (by decide) (const_policy false false) happy_path
    (by decide) happy_call (by decide)

/-- C8 (round trip): a datagram made of a header and a non-empty payload of at most
`LOGGER_ENTRY_MAX_PAYLOAD` bytes, with credentials attached whose uid is not `AID_LOGD`
and a header id among `MAIN`, `RADIO`, `EVENTS`, `SYSTEM`, `CRASH`, `STATS`, makes
`HandleData` call `LogBuffer::log` exactly once, for every answer of the policy
functions; the message pointer is at offset `sizeof(android_log_header_t)` of the
buffer, and the length and the bytes passed are those of the payload sent. -/
theorem HandleData_round_trip (P : Platform) (hP : P.fits) (henum : P.enum_ok)
    (h16 : P.LOGGER_ENTRY_MAX_PAYLOAD ≤ UINT16_MAX) (pol : Policy) (r : Received)
    (hdr payload rest : List Nat) (hbuf : r.buffer = hdr ++ payload ++ rest)
    (hhdr : hdr.length = P.sizeof_android_log_header_t) (hpay0 : payload ≠ [])
    (hpay : payload.length ≤ P.LOGGER_ENTRY_MAX_PAYLOAD)
    (hn : r.n = ((P.sizeof_android_log_header_t + payload.length : Nat) : Int))
    (c : cmsghdr) (hc : AttachedCredentials P r.control c) (hu : c.data.uid ≠ P.AID_LOGD)
    (hid : (P.header_of hdr).id ∈ [P.LOG_ID_MAIN, P.LOG_ID_RADIO, P.LOG_ID_EVENTS,
      P.LOG_ID_SYSTEM, P.LOG_ID_CRASH, P.LOG_ID_STATS]) :
    ∃ call, (HandleData P pol r).calls = [call] ∧
      call.msg = P.sizeof_android_log_header_t ∧ call.len = payload.length ∧
      call.payload (HandleData P pol r).buffer = payload ∧
      call.log_id = (P.header_of hdr).id ∧ call.realtime = (P.header_of hdr).realtime ∧
      call.tid = (P.header_of hdr).tid ∧ call.uid = c.data.uid ∧ call.pid = c.data.pid := by
  have hlen0 : 0 < payload.length := List.length_pos.mpr hpay0
  have hfit := hP
  unfold Platform.fits sizeof_buffer at hfit
  have hsz := to_ssize_t_sizeof P hP
  have h1 : ¬ r.n ≤ to_ssize_t P P.sizeof_android_log_header_t := by
    rw [hsz, hn]; push_cast; omega
  have hhead : (r.buffer.set r.n.toNat 0).take P.sizeof_android_log_header_t = hdr := by
    rw [header_after_store P hP r h1, hbuf, List.append_assoc]
    exact List.take_left' hhdr
  have hids := enum_ok_plain P henum (P.header_of hdr).id hid
  have hpass := calls_of_pass P pol r c.data h1 (findCred_of_attached P r.control c hc) hu
    (by rw [hhead]; exact hids.1) (by rw [hhead]; exact hids.2.1)
    (by rw [hhead]; intro h; exact absurd h hids.2.2)
  have hlo : (P.sizeof_android_log_header_t : Int) < r.n := by rw [hn]; push_cast; omega
  have hhi : r.n < 2 ^ (P.size_bits - 1) := by
    have : P.sizeof_android_log_header_t + payload.length < 2 ^ (P.size_bits - 1) := by omega
    rw [hn]; exact_mod_cast this
  have hsub : r.n - (P.sizeof_android_log_header_t : Int) = (payload.length : Int) := by
    rw [hn]; push_cast; omega
  have hclamp : clampLen P (to_ssize_t P (to_size_t P ((to_size_t P r.n : Int) -
      (P.sizeof_android_log_header_t : Int)))) = payload.length := by
    rw [n_after_sub P r.n hlo hhi, hsub,
      clampLen_eq P _ (by omega) (by rw [← hsub]; omega), Int.toNat_ofNat]
    exact Nat.min_eq_left (le_trans hpay h16)
  have hbytes : ((r.buffer.set r.n.toNat 0).drop P.sizeof_android_log_header_t).take
      payload.length = payload := by
    have hidx : r.n.toNat = (hdr ++ payload).length + 0 := by
      rw [hn, Int.toNat_ofNat, List.length_append, hhdr]; rfl
    rw [hbuf, hidx, List.set_append_right _ _ (by omega), List.append_assoc,
      List.drop_left' hhdr, List.take_left' rfl]
  rw [hpass, hhead, hclamp]
  exact ⟨_, rfl, rfl, rfl, hbytes, rfl, rfl, rfl, rfl, rfl⟩

/-- Witness of C8 on scenario 1: the 11 payload bytes sent by writer 10001 on `MAIN`
are passed in one call, with security logging disabled. -/
theorem HandleData_round_trip_witness :
    ∃ call, (HandleData android (const_policy false false) happy_path).calls = [call] ∧
      call.msg = 11 ∧ call.len = hello_payload.length ∧
      call.payload (HandleData android (const_policy false false) happy_path).buffer
        = hello_payload ∧
      call.log_id = (android.header_of (wire_header 0 42 1700000000 0)).id ∧
      call.realtime = (android.header_of (wire_header 0 42 1700000000 0)).realtime ∧
      call.tid = (android.header_of (wire_header 0 42 1700000000 0)).tid ∧
      call.uid = 10001 ∧ call.pid = 77 :=
  HandleData_round_trip android (by decide) (by decide) (by decide)
    (const_policy false false) happy_path (wire_header 0 42 1700000000 0) hello_payload
    (List.replicate 4058 170) rfl (by decide) (by decide) (by decide) (by decide)
    (scm_credentials 77 10001 10001) ⟨[], [], rfl, by simp, rfl, rfl⟩ (by decide)
    (by decide)

/-- C9: a datagram longer than the header, with credentials attached whose uid is not
`AID_LOGD` and header id `LOG_ID_SECURITY`, is forwarded in exactly one call of
`LogBuffer::log` when `__android_log_security()` and
`clientHasLogCredentials(uid, gid, pid)` both answer true. -/
theorem HandleData_security_admitted (P : Platform) (hP : P.fits) (henum : P.enum_ok)
    (pol : Policy) (r : Received) (hn : (P.sizeof_android_log_header_t : Int) < r.n)
    (c : cmsghdr) (hc : AttachedCredentials P r.control c) (hu : c.data.uid ≠ P.AID_LOGD)
    (hid : (P.header_of (r.buffer.take P.sizeof_android_log_header_t)).id
      = P.LOG_ID_SECURITY)
    (hs : pol.__android_log_security = true)
    (hp : pol.clientHasLogCredentials c.data.uid c.data.gid c.data.pid = true) :
    ∃ call, (HandleData P pol r).calls = [call] ∧ call.log_id = P.LOG_ID_SECURITY ∧
      call.uid = c.data.uid ∧ call.pid = c.data.pid := by
  have h1 : ¬ r.n ≤ to_ssize_t P P.sizeof_android_log_header_t := by
    rw [to_ssize_t_sizeof P hP]; omega
  have hhead := header_after_store P hP r h1
  have hids := enum_ok_security P henum
  have hpass := calls_of_pass P pol r c.data h1 (findCred_of_attached P r.control c hc) hu
    (by rw [hhead, hid]; exact hids.1) (by rw [hhead, hid]; exact hids.2)
    (fun _ => ⟨hs, hp⟩)
  rw [hpass, hhead, hid]
  exact ⟨_, rfl, rfl, rfl, rfl⟩

/-- Witness of C9 on scenario 4: with both policy answers true, the `SECURITY` record of
writer 10001 is forwarded once. -/
theorem HandleData_security_admitted_witness :
    ∃ call, (HandleData android (const_policy true true) security_record).calls = [call] ∧
      call.log_id = 6 ∧ call.uid = 10001 ∧ call.pid = 77 :=
  HandleData_security_admitted android (by decide) (by decide) (const_policy true true)
    security_record (by decide) (scm_credentials 77 10001 10001)
    ⟨[], [], rfl, by simp, rfl, rfl⟩ (by decide) (by decide) rfl rfl

/-- C10, as the source has it: `StartListener` returns true exactly when the descriptor
acquired at construction is positive, and then starts one worker for this listener;
for a descriptor that is zero or negative it returns false and starts none. -/
theorem StartListener_iff_positive (this : Listener) :
    ((StartListener this).ret = true ↔ 0 < this.socket_) ∧
    (StartListener this).workers = if 0 < this.socket_ then [this] else [] := by
  unfold StartListener
  by_cases h : this.socket_ ≤ 0
  · have h' : ¬ 0 < this.socket_ := by omega
    simp [h, h']
  · have h' : 0 < this.socket_ := by omega
    simp [h, h']

/-- C10 as stated fails for descriptor 0: a listener constructed where
`android_get_control_socket` returns 0 holds a non-negative descriptor, and
`StartListener` returns false. -/
theorem StartListener_descriptor_zero :
    ¬ ((StartListener (Listener.new descriptor_zero_env 0)).ret = true ↔
        0 ≤ (Listener.new descriptor_zero_env 0).socket_) := by
  decide

/-! ## Lemmas on the stores and on the number of calls -/

/-- A receive above the size floor makes exactly the store of line 78. -/
theorem stores_above_floor (P : Platform) (pol : Policy) (r : Received)
    (h1 : ¬ r.n ≤ to_ssize_t P P.sizeof_android_log_header_t) :
    (HandleData P pol r).stores = [(r.n, 0)] ∧
    (HandleData P pol r).buffer = r.buffer.set r.n.toNat 0 := by
  unfold HandleData
  simp only [if_neg h1]
  cases findCred P r.control with
  | none => exact ⟨rfl, rfl⟩
  | some cred =>
    simp only
    split_ifs <;> exact ⟨rfl, rfl⟩

/-- `HandleData` makes at most one call of `LogBuffer::log`. -/
theorem calls_length_le_one (P : Platform) (pol : Policy) (r : Received) :
    (HandleData P pol r).calls.length ≤ 1 := by
  by_cases h1 : r.n ≤ to_ssize_t P P.sizeof_android_log_header_t
  · simp [HandleData, h1]
  · unfold HandleData
    simp only [if_neg h1]
    cases findCred P r.control with
    | none => simp
    | some cred =>
      simp only
      split_ifs <;> simp

/-- C11: when `android_get_control_socket` returns a negative value and the
`setsockopt` that enables `SO_PASSCRED` on the socket made by `socket_local_server`
fails, `GetLogSocket` returns -1, and `StartListener` of a listener constructed then
returns false and starts no worker. -/
theorem GetLogSocket_passcred_failure (env : SocketEnv) (buf : Nat)
    (hctl : env.android_get_control_socket < 0)
    (hopt : env.setsockopt env.socket_local_server ≠ 0) :
    GetLogSocket env = -1 ∧
    (StartListener (Listener.new env buf)).ret = false ∧
    (StartListener (Listener.new env buf)).workers = [] := by
  have h : GetLogSocket env = -1 := by
    unfold GetLogSocket
    simp only [if_pos hctl]
    rw [if_pos hopt]
  refine ⟨h, ?_, ?_⟩ <;> simp [StartListener, Listener.new, h]

/-- Witness of C11: no preopened socket, local socket 5, `setsockopt` returning -1. -/
theorem GetLogSocket_passcred_failure_witness :
    GetLogSocket passcred_failure_env = -1 ∧
    (StartListener (Listener.new passcred_failure_env 0)).ret = false ∧
    (StartListener (Listener.new passcred_failure_env 0)).workers = [] :=
  GetLogSocket_passcred_failure passcred_failure_env 0 (by decide) (by decide)

/-- C12: for a result `n` of `recvmsg` above the header size and at most the `iov_len`
given to the kernel, which is `sizeof(buffer) - 1` and equals
`sizeof(android_log_header_t) + LOGGER_ENTRY_MAX_PAYLOAD`, the only store that
`HandleData` makes is `buffer[n] = 0`, at an index that is not negative and is
strictly below `sizeof(buffer)`. -/
theorem HandleData_terminator_in_bounds (P : Platform) (hP : P.fits) (pol : Policy)
    (r : Received) (hlo : (P.sizeof_android_log_header_t : Int) < r.n)
    (hhi : r.n ≤ (iov_len P : Int)) :
    iov_len P = sizeof_buffer P - 1 ∧
    iov_len P = P.sizeof_android_log_header_t + P.LOGGER_ENTRY_MAX_PAYLOAD ∧
    (HandleData P pol r).stores = [(r.n, 0)] ∧
    ∀ s ∈ (HandleData P pol r).stores, 0 ≤ s.1 ∧ s.1 < (sizeof_buffer P : Int) := by
  have h1 : ¬ r.n ≤ to_ssize_t P P.sizeof_android_log_header_t := by
    rw [to_ssize_t_sizeof P hP]; omega
  have hst := (stores_above_floor P pol r h1).1
  have hiov : iov_len P = P.sizeof_android_log_header_t + P.LOGGER_ENTRY_MAX_PAYLOAD := by
    unfold iov_len sizeof_buffer; omega
  refine ⟨rfl, hiov, hst, ?_⟩
  intro s hs
  rw [hst, List.mem_singleton] at hs
  subst hs
  have : sizeof_buffer P = iov_len P + 1 := by unfold iov_len sizeof_buffer; omega
  simp only
  omega

/-- Witness of C12 at the maximum: `n = 4079 = iov_len`, store at index 4079 of a
buffer of 4080 bytes. -/
theorem HandleData_terminator_in_bounds_witness :
    iov_len android = sizeof_buffer android - 1 ∧
    iov_len android = 11 + 4068 ∧
    (HandleData android (const_policy true true) max_receive).stores = [(4079, 0)] ∧
    ∀ s ∈ (HandleData android (const_policy true true) max_receive).stores,
      0 ≤ s.1 ∧ s.1 < (sizeof_buffer android : Int) :=
  HandleData_terminator_in_bounds android (by decide) (const_policy true true) max_receive
    (by decide) (by decide)

/-- C13 (oversize): when the payload sent is longer than `LOGGER_ENTRY_MAX_PAYLOAD` and
the kernel has truncated the receive to the iov length
`sizeof(android_log_header_t) + LOGGER_ENTRY_MAX_PAYLOAD`, a datagram that passes the
other tests (credentials attached with uid not `AID_LOGD`, header id below `LOG_ID_MAX`
and not `KERNEL`, policy answers true if the id is `SECURITY`) is forwarded in exactly
one call of `LogBuffer::log`, with length `min(LOGGER_ENTRY_MAX_PAYLOAD, UINT16_MAX)`
and with the first that many bytes of the payload sent. -/
theorem HandleData_oversize_truncated (P : Platform) (hP : P.fits)
    (hmax : 0 < P.LOGGER_ENTRY_MAX_PAYLOAD) (pol : Policy) (r : Received)
    (hdr sent rest : List Nat) (hsent : P.LOGGER_ENTRY_MAX_PAYLOAD < sent.length)
    (hhdr : hdr.length = P.sizeof_android_log_header_t)
    (hbuf : r.buffer = hdr ++ sent.take P.LOGGER_ENTRY_MAX_PAYLOAD ++ rest)
    (hn : r.n = (iov_len P : Int))
    (c : cmsghdr) (hc : AttachedCredentials P r.control c) (hu : c.data.uid ≠ P.AID_LOGD)
    (hlt : (P.header_of hdr).id < P.LOG_ID_MAX)
    (hk : (P.header_of hdr).id ≠ P.LOG_ID_KERNEL)
    (hsec : (P.header_of hdr).id = P.LOG_ID_SECURITY → pol.__android_log_security = true ∧
      pol.clientHasLogCredentials c.data.uid c.data.gid c.data.pid = true) :
    ∃ call, (HandleData P pol r).calls = [call] ∧
      call.msg = P.sizeof_android_log_header_t ∧
      call.len = min P.LOGGER_ENTRY_MAX_PAYLOAD UINT16_MAX ∧
      call.payload (HandleData P pol r).buffer
        = sent.take (min P.LOGGER_ENTRY_MAX_PAYLOAD UINT16_MAX) := by
  have hfit := hP
  unfold Platform.fits sizeof_buffer at hfit
  have hiov : iov_len P = P.sizeof_android_log_header_t + P.LOGGER_ENTRY_MAX_PAYLOAD := by
    unfold iov_len sizeof_buffer; omega
  rw [hiov] at hn
  have hsz := to_ssize_t_sizeof P hP
  have h1 : ¬ r.n ≤ to_ssize_t P P.sizeof_android_log_header_t := by
    rw [hsz, hn]; push_cast; omega
  have hhead : (r.buffer.set r.n.toNat 0).take P.sizeof_android_log_header_t = hdr := by
    rw [header_after_store P hP r h1, hbuf, List.append_assoc]
    exact List.take_left' hhdr
  have hpass := calls_of_pass P pol r c.data h1 (findCred_of_attached P r.control c hc) hu
    (by rw [hhead]; exact hlt) (by rw [hhead]; exact hk) (by rw [hhead]; exact hsec)
  have hlo : (P.sizeof_android_log_header_t : Int) < r.n := by rw [hn]; push_cast; omega
  have hhi : r.n < 2 ^ (P.size_bits - 1) := by
    have : P.sizeof_android_log_header_t + P.LOGGER_ENTRY_MAX_PAYLOAD
        < 2 ^ (P.size_bits - 1) := by omega
    rw [hn]; exact_mod_cast this
  have hsub : r.n - (P.sizeof_android_log_header_t : Int)
      = (P.LOGGER_ENTRY_MAX_PAYLOAD : Int) := by
    rw [hn]; push_cast; omega
  have hclamp : clampLen P (to_ssize_t P (to_size_t P ((to_size_t P r.n : Int) -
      (P.sizeof_android_log_header_t : Int)))) = min P.LOGGER_ENTRY_MAX_PAYLOAD UINT16_MAX := by
    rw [n_after_sub P r.n hlo hhi, hsub,
      clampLen_eq P _ (by omega) (by rw [← hsub]; omega), Int.toNat_ofNat]
  have htake : (sent.take P.LOGGER_ENTRY_MAX_PAYLOAD).length = P.LOGGER_ENTRY_MAX_PAYLOAD := by
    rw [List.length_take]; omega
  have hbytes : ((r.buffer.set r.n.toNat 0).drop P.sizeof_android_log_header_t).take
      (min P.LOGGER_ENTRY_MAX_PAYLOAD UINT16_MAX)
        = sent.take (min P.LOGGER_ENTRY_MAX_PAYLOAD UINT16_MAX) := by
    have hidx : r.n.toNat = (hdr ++ sent.take P.LOGGER_ENTRY_MAX_PAYLOAD).length + 0 := by
      rw [hn, Int.toNat_ofNat, List.length_append, hhdr, htake]; rfl
    rw [hbuf, hidx, List.set_append_right _ _ (by omega), List.append_assoc,
      List.drop_left' hhdr,
      List.take_append_of_le_length (by rw [htake]; exact Nat.min_le_left _ _),
      List.take_take, Nat.min_eq_left (Nat.min_le_left _ _)]
  rw [hpass, hclamp]
  exact ⟨_, rfl, rfl, rfl, hbytes⟩

/-- Witness of C13 on scenario 6: of the 70000 bytes sent, the first 4068 are passed in
one call. -/
theorem HandleData_oversize_truncated_witness :
    ∃ call, (HandleData android (const_policy false false) oversize).calls = [call] ∧
      call.msg = 11 ∧ call.len = min 4068 UINT16_MAX ∧
      call.payload (HandleData android (const_policy false false) oversize).buffer
        = oversize_payload.take (min 4068 UINT16_MAX) :=
  HandleData_oversize_truncated android (by decide) (by decide) (const_policy false false)
    oversize (wire_header 0 42 1700000000 0) oversize_payload [170]
    (by simp only [oversize_payload, List.length_replicate]; decide) (by decide) rfl
    (by decide)
    (scm_credentials 77 10001 10001) ⟨[], [], rfl, by simp, rfl, rfl⟩ (by decide)
    (by decide) (by decide) (by decide)

/-- C14, as the source has it: when `StartListener` returns true, the listener holds
the descriptor `GetLogSocket` returned.  If that socket was created locally
(`android_get_control_socket` returned a negative value), `SO_PASSCRED` is on for it,
turned on by the `setsockopt` of line 136.  If it was adopted from the service
manager, `GetLogSocket` has left every socket option as it found it, so `SO_PASSCRED`
is on for it exactly when it was on before. -/
theorem GetLogSocket_passcred_paths (env : SocketEnv) (passcred : Int → Bool) (buf : Nat)
    (hstart : (StartListener (Listener.new env buf)).ret = true) :
    (Listener.new env buf).socket_ = (GetLogSocket_passcred env passcred).1 ∧
    (env.android_get_control_socket < 0 →
      (GetLogSocket_passcred env passcred).2 (Listener.new env buf).socket_ = true) ∧
    (0 ≤ env.android_get_control_socket →
      (Listener.new env buf).socket_ = env.android_get_control_socket ∧
      (GetLogSocket_passcred env passcred).2 = passcred) := by
  have hpos : 0 < GetLogSocket env := by
    by_contra hneg
    have : GetLogSocket env ≤ 0 := by omega
    simp [StartListener, Listener.new, this] at hstart
  by_cases hctl : env.android_get_control_socket < 0
  · by_cases hopt : env.setsockopt env.socket_local_server ≠ 0
    · have : GetLogSocket env = -1 := by
        unfold GetLogSocket
        simp only [if_pos hctl]
        rw [if_pos hopt]
      omega
    · have hg : GetLogSocket env = env.socket_local_server := by
        unfold GetLogSocket
        simp only [if_pos hctl]
        rw [if_neg hopt]
      have hp : GetLogSocket_passcred env passcred = (env.socket_local_server,
          fun fd => if fd = env.socket_local_server then true else passcred fd) := by
        unfold GetLogSocket_passcred
        simp only [if_pos hctl]
        rw [if_neg hopt]
      refine ⟨?_, ?_, ?_⟩
      · simp [Listener.new, hg, hp]
      · intro _
        simp [Listener.new, hg, hp]
      · intro h; omega
  · have hg : GetLogSocket env = env.android_get_control_socket := by
      unfold GetLogSocket
      simp only [if_neg hctl]
    have hp : GetLogSocket_passcred env passcred
        = (env.android_get_control_socket, passcred) := by
      unfold GetLogSocket_passcred
      simp only [if_neg hctl]
    refine ⟨?_, ?_, ?_⟩
    · simp [Listener.new, hg, hp]
    · intro h; exact absurd h hctl
    · intro _
      simp [Listener.new, hg, hp]

/-- Witness of C14 on the local path: without a preopened socket and with a `setsockopt`
that succeeds, the listener starts on descriptor 5 with `SO_PASSCRED` on, although
the option was off on every descriptor before. -/
theorem GetLogSocket_passcred_paths_witness :
    (StartListener (Listener.new standalone_env 0)).ret = true ∧
    (Listener.new standalone_env 0).socket_ = 5 ∧
    (GetLogSocket_passcred standalone_env passcred_off).2 5 = true :=
  ⟨by decide, by decide,
   (GetLogSocket_passcred_paths standalone_env passcred_off 0 (by decide)).2.1 (by decide)⟩

/-- C14 as stated fails on the adopted path: with descriptor 3 handed over by the
service manager and `SO_PASSCRED` off on it, `StartListener` returns true and the
option is still off on the listener's socket. -/
theorem GetLogSocket_adopted_without_passcred :
    ¬ ((StartListener (Listener.new adopted_env 0)).ret = true →
        (GetLogSocket_passcred adopted_env passcred_off).2
          (Listener.new adopted_env 0).socket_ = true) := by
  decide

/-- The stores of `HandleData` are none or the one of line 78. -/
theorem mem_stores (P : Platform) (pol : Policy) (r : Received) (s : Int × Nat)
    (h : s ∈ (HandleData P pol r).stores) : s = (r.n, 0) := by
  by_cases h1 : r.n ≤ to_ssize_t P P.sizeof_android_log_header_t
  · simp [HandleData, h1] at h
  · rw [(stores_above_floor P pol r h1).1, List.mem_singleton] at h
    exact h

/-- A receive in one of the rejecting cases is not forwarded. -/
theorem calls_nil_of_rejected (P : Platform) (hP : P.fits) (pol : Policy) (r : Received)
    (hrej : Rejected P pol r) : (HandleData P pol r).calls = [] := by
  rw [List.eq_nil_iff_forall_not_mem]
  intro call h
  obtain ⟨h1, cred, hcred, hne, header, hh, hmax, hk, hsec, _⟩ := mem_calls P pol r call h
  rw [header_after_store P hP r h1] at hh
  subst hh
  rw [to_ssize_t_sizeof P hP] at h1
  rcases hrej with hfloor | hnone | ⟨c, hc, hu⟩ | hid | ⟨hid, hpol⟩
  · exact h1 hfloor
  · rw [findCred_eq_none P r.control hnone] at hcred
    cases hcred
  · rw [findCred_of_attached P r.control c hc] at hcred
    have e : c.data = cred := Option.some.inj hcred
    rw [← e] at hne
    exact hne hu
  · rcases hid with hid | hid
    · exact hk hid
    · omega
  · have hboth := hsec hid
    rcases hpol with hf | ⟨c, hc, hf⟩
    · rw [hf] at hboth
      exact absurd hboth.1 (by simp)
    · rw [findCred_of_attached P r.control c hc] at hcred
      have e : c.data = cred := Option.some.inj hcred
      rw [← e, hf] at hboth
      exact absurd hboth.2 (by simp)

/-- C15: one `HandleData` makes at most one call of `LogBuffer::log`; its effects are
the `recvmsg` on `socket_`, the store `buffer[n] = 0` into its local buffer and the
calls of `LogBuffer::log` on `logbuf_`, nothing else; it leaves `socket_` and `logbuf_`
as they were; and in each rejecting case it makes no call of `LogBuffer::log`, its
effects being the `recvmsg` and at most the store. -/
theorem HandleData_frame (P : Platform) (hP : P.fits) (pol : Policy) (this : Listener)
    (r : Received) :
    (HandleData P pol r).calls.length ≤ 1 ∧
    (this.HandleData P pol r).listener = this ∧
    (∀ e ∈ (this.HandleData P pol r).effects,
      e = Effect.recvmsg this.socket_ ∨ e = Effect.store r.n 0 ∨
      ∃ call ∈ (HandleData P pol r).calls, e = Effect.log this.logbuf_ call) ∧
    (Rejected P pol r →
      (HandleData P pol r).calls = [] ∧
      ∀ e ∈ (this.HandleData P pol r).effects,
        e = Effect.recvmsg this.socket_ ∨ e = Effect.store r.n 0) := by
  have hall : ∀ e ∈ (this.HandleData P pol r).effects,
      e = Effect.recvmsg this.socket_ ∨ e = Effect.store r.n 0 ∨
      ∃ call ∈ (HandleData P pol r).calls, e = Effect.log this.logbuf_ call := by
    intro e he
    simp only [Listener.HandleData, List.mem_cons, List.mem_append, List.mem_map] at he
    rcases he with he | ⟨s, hs, he⟩ | ⟨call, hcall, he⟩
    · exact Or.inl he
    · have := mem_stores P pol r s hs
      subst this
      exact Or.inr (Or.inl he.symm)
    · exact Or.inr (Or.inr ⟨call, hcall, he.symm⟩)
  refine ⟨calls_length_le_one P pol r, rfl, hall, ?_⟩
  intro hrej
  have hnil := calls_nil_of_rejected P hP pol r hrej
  refine ⟨hnil, ?_⟩
  intro e he
  rcases hall e he with h | h | ⟨call, hcall, _⟩
  · exact Or.inl h
  · exact Or.inr h
  · rw [hnil] at hcall
    cases hcall

/-- Witness of C15: on listener (socket 3, log buffer 4096) the happy-path datagram
gives the `recvmsg`, the store and one call, and the self-log datagram is rejected
with the `recvmsg` and the store only; the listener is unchanged in both. -/
theorem HandleData_frame_witness :
    (Listener.HandleData android (const_policy true true)
        { socket_ := 3, logbuf_ := 4096 } happy_path)
      = { listener := { socket_ := 3, logbuf_ := 4096 }
          effects := [Effect.recvmsg 3, Effect.store 22 0, Effect.log 4096 happy_call] } ∧
    Rejected android (const_policy true true) self_log ∧
    (HandleData android (const_policy true true) self_log).calls = [] ∧
    ∀ e ∈ (Listener.HandleData android (const_policy true true)
        { socket_ := 3, logbuf_ := 4096 } self_log).effects,
      e = Effect.recvmsg 3 ∨ e = Effect.store self_log.n 0 :=
  ⟨by decide,
   Or.inr (Or.inr (Or.inl ⟨scm_credentials 77 1036 1036,
     ⟨[], [], rfl, by simp, rfl, rfl⟩, rfl⟩)),
   (HandleData_frame android (by decide) (const_policy true true)
     { socket_ := 3, logbuf_ := 4096 } self_log).2.2.2
     (Or.inr (Or.inr (Or.inl ⟨scm_credentials 77 1036 1036,
       ⟨[], [], rfl, by simp, rfl, rfl⟩, rfl⟩)))⟩

/-- C16 (noninterference): two receives of the same length, with the same attached
credentials and the same header id, under the same policy, are both forwarded or
both dropped, and when forwarded the calls agree on log id, uid, pid, message offset
and length, whatever the tid, realtime and payload bytes of each. -/
theorem HandleData_noninterference (P : Platform) (hP : P.fits) (pol : Policy)
    (r₁ r₂ : Received) (hn : r₁.n = r₂.n)
    (hcred : findCred P r₁.control = findCred P r₂.control)
    (hid : (P.header_of (r₁.buffer.take P.sizeof_android_log_header_t)).id
      = (P.header_of (r₂.buffer.take P.sizeof_android_log_header_t)).id) :
    ((HandleData P pol r₁).calls = [] ↔ (HandleData P pol r₂).calls = []) ∧
    (HandleData P pol r₁).calls.map (fun c => (c.log_id, c.uid, c.pid, c.msg, c.len))
      = (HandleData P pol r₂).calls.map (fun c => (c.log_id, c.uid, c.pid, c.msg, c.len)) := by
  have key : (HandleData P pol r₁).calls.map (fun c => (c.log_id, c.uid, c.pid, c.msg, c.len))
      = (HandleData P pol r₂).calls.map (fun c => (c.log_id, c.uid, c.pid, c.msg, c.len)) := by
    by_cases h1 : r₁.n ≤ to_ssize_t P P.sizeof_android_log_header_t
    · have h2 : r₂.n ≤ to_ssize_t P P.sizeof_android_log_header_t := hn ▸ h1
      simp [HandleData, h1, h2]
    · have h2 : ¬ r₂.n ≤ to_ssize_t P P.sizeof_android_log_header_t := hn ▸ h1
      have e1 := header_after_store P hP r₁ h1
      have e2 := header_after_store P hP r₂ h2
      unfold HandleData
      simp only [if_neg h1, if_neg h2, e1, e2, hcred, hid]
      rw [hn]
      cases findCred P r₂.control with
      | none => rfl
      | some cred =>
        simp only
        split_ifs <;> rfl
  refine ⟨?_, key⟩
  have hlen := congrArg List.length key
  simp only [List.length_map] at hlen
  rw [← List.length_eq_zero, ← List.length_eq_zero, hlen]

/-- Witness of C16: `happy_path` and `other_fields` differ in tid, realtime and payload
only; both are forwarded, with the same uid 10001 and pid 77. -/
theorem HandleData_noninterference_witness :
    (HandleData android (const_policy false false) happy_path).calls.map
        (fun c => (c.tid, c.realtime)) = [(42, { tv_sec := 1700000000, tv_nsec := 0 })] ∧
    (HandleData android (const_policy false false) other_fields).calls.map
        (fun c => (c.tid, c.realtime)) = [(999, { tv_sec := 12345, tv_nsec := 678 })] ∧
    ((HandleData android (const_policy false false) happy_path).calls = [] ↔
      (HandleData android (const_policy false false) other_fields).calls = []) ∧
    (HandleData android (const_policy false false) happy_path).calls.map
        (fun c => (c.log_id, c.uid, c.pid, c.msg, c.len))
      = (HandleData android (const_policy false false) other_fields).calls.map
        (fun c => (c.log_id, c.uid, c.pid, c.msg, c.len)) :=
  ⟨by decide, by decide,
   HandleData_noninterference android (by decide) (const_policy false false) happy_path
     other_fields (by decide) (by decide) (by decide)⟩

/-- C17: the clamp is not taken for a receive within the iov.  With
`LOGGER_ENTRY_MAX_PAYLOAD <= UINT16_MAX`, a buffer of `sizeof(buffer)` bytes and
`n <= iov_len`, every call of `LogBuffer::log` passed the test `(size_t)n <= UINT16_MAX`
of line 124 and has length exactly `n - sizeof(android_log_header_t)`, between 1 and
`LOGGER_ENTRY_MAX_PAYLOAD`; its bytes are those at `[sizeof(android_log_header_t), n)`
of the buffer, a range inside the buffer, and the byte at index `n` is 0. -/
theorem HandleData_clamp_not_taken (P : Platform) (hP : P.fits)
    (h16 : P.LOGGER_ENTRY_MAX_PAYLOAD ≤ UINT16_MAX) (pol : Policy) (r : Received)
    (hlen : r.buffer.length = sizeof_buffer P) (hn : r.n ≤ (iov_len P : Int))
    (call : LogCall) (h : call ∈ (HandleData P pol r).calls) :
    to_size_t P (to_ssize_t P (to_size_t P ((to_size_t P r.n : Int) -
      (P.sizeof_android_log_header_t : Int)))) ≤ UINT16_MAX ∧
    (call.len : Int) = r.n - P.sizeof_android_log_header_t ∧
    1 ≤ call.len ∧ call.len ≤ P.LOGGER_ENTRY_MAX_PAYLOAD ∧
    call.msg = P.sizeof_android_log_header_t ∧
    call.msg + call.len = r.n.toNat ∧
    r.n.toNat < (HandleData P pol r).buffer.length ∧
    (HandleData P pol r).buffer.length = sizeof_buffer P ∧
    (HandleData P pol r).buffer[r.n.toNat]? = some 0 ∧
    call.payload (HandleData P pol r).buffer
      = (r.buffer.drop P.sizeof_android_log_header_t).take
          (r.n.toNat - P.sizeof_android_log_header_t) := by
  obtain ⟨h1, cred, _, _, header, _, _, _, _, hcall⟩ := mem_calls P pol r call h
  have hbufeq := (stores_above_floor P pol r h1).2
  rw [to_ssize_t_sizeof P hP] at h1
  have hfit := hP
  unfold Platform.fits at hfit
  have hiov : sizeof_buffer P = iov_len P + 1 := by unfold iov_len sizeof_buffer; omega
  have hiov2 : iov_len P = P.sizeof_android_log_header_t + P.LOGGER_ENTRY_MAX_PAYLOAD := by
    unfold iov_len sizeof_buffer; omega
  have hlo : (P.sizeof_android_log_header_t : Int) < r.n := by omega
  have hhi : r.n < 2 ^ (P.size_bits - 1) := by
    have : ((iov_len P : Nat) : Int) < ((2 ^ (P.size_bits - 1) : Nat) : Int) := by
      exact_mod_cast (by omega : iov_len P < 2 ^ (P.size_bits - 1))
    push_cast at this
    omega
  have h0 : (0 : Int) ≤ r.n - P.sizeof_android_log_header_t := by omega
  have hhi' : r.n - (P.sizeof_android_log_header_t : Int) < 2 ^ (P.size_bits - 1) := by omega
  have hU : UINT16_MAX = 65535 := rfl
  have hm : (r.n - (P.sizeof_android_log_header_t : Int)).toNat ≤ UINT16_MAX := by omega
  rw [n_after_sub P r.n hlo hhi] at hcall ⊢
  rw [clampLen_eq P _ h0 hhi', Nat.min_eq_left hm] at hcall
  have hsize : to_size_t P (r.n - P.sizeof_android_log_header_t)
      = (r.n - (P.sizeof_android_log_header_t : Int)).toNat := by
    have := to_size_t_eq P _ h0 hhi'
    omega
  have hclen : call.len = (r.n - (P.sizeof_android_log_header_t : Int)).toNat := by
    rw [hcall]
  have hcmsg : call.msg = P.sizeof_android_log_header_t := by rw [hcall]
  have hidx : r.n.toNat < r.buffer.length := by omega
  refine ⟨by rw [hsize]; exact hm, by omega, by omega, by omega, hcmsg, by omega, ?_, ?_,
    ?_, ?_⟩
  · rw [hbufeq, List.length_set]; exact hidx
  · rw [hbufeq, List.length_set]; exact hlen
  · rw [hbufeq]; exact List.getElem?_set_self hidx
  · unfold LogCall.payload
    rw [hbufeq, hcmsg, hclen]
    have e : (r.n - (P.sizeof_android_log_header_t : Int)).toNat
        = r.n.toNat - P.sizeof_android_log_header_t := by omega
    rw [e]
    apply List.ext_getElem?
    intro i
    by_cases hi : i < r.n.toNat - P.sizeof_android_log_header_t
    · rw [List.getElem?_take_of_lt hi, List.getElem?_take_of_lt hi, List.getElem?_drop,
        List.getElem?_drop, List.getElem?_set_ne (by omega)]
    · rw [List.getElem?_take_eq_none (by omega), List.getElem?_take_eq_none (by omega)]

/-- Witness of C17 on scenario 1: 22 bytes received into the 4080-byte buffer, 11 bytes
passed from offset 11, and byte 22 of the buffer is 0. -/
theorem HandleData_clamp_not_taken_witness :
    to_size_t android (to_ssize_t android (to_size_t android
      ((to_size_t android happy_path.n : Int) - (11 : Nat)))) ≤ UINT16_MAX ∧
    (happy_call.len : Int) = happy_path.n - (11 : Nat) ∧
    1 ≤ happy_call.len ∧ happy_call.len ≤ 4068 ∧
    happy_call.msg = 11 ∧
    happy_call.msg + happy_call.len = happy_path.n.toNat ∧
    happy_path.n.toNat
      < (HandleData android (const_policy false false) happy_path).buffer.length ∧
    (HandleData android (const_policy false false) happy_path).buffer.length
      = sizeof_buffer android ∧
    (HandleData android (const_policy false false) happy_path).buffer[happy_path.n.toNat]?
      = some 0 ∧
    happy_call.payload (HandleData android (const_policy false false) happy_path).buffer
      = (happy_path.buffer.drop 11).take (happy_path.n.toNat - 11) :=
  HandleData_clamp_not_taken android (by decide) (by decide) (const_policy false false)
    happy_path (by simp only [happy_path, datagram, wire_header, List.length_append,
      List.length_replicate, List.length_cons, List.length_nil]; decide)
    (by decide) happy_call (by decide)

end LogListener
